import Mathlib

/-!
Verification of the IOTA processing coordinator (`iota/components/iota_frames.py`,
class `ProcWindow`) against its natural-language specification.

The Python code is shallowly embedded: the pure core of each method is a Lean
function over explicit state; the filesystem is a list of (path, content)
entries; wall-clock time is an integer; the wx GUI layer (labels, gauges,
toolbars) is not modelled, since no claim mentions it.
-/

/-- A work item, embedding the triple `[i, total, j]` built by list
comprehensions such as
`[[i, len(lst) + 1, j] for i, j in enumerate(lst, 1)]`
in `ProcWindow.process_images` / `ProcWindow.onResume`.
`idx` is the ordinal (first element), `total` the second element, and
`path` the input path `j`. -/
structure WItem where
  idx : Nat
  total : Nat
  path : String
deriving DecidableEq, Repr

/-- A harvested result object, keeping just the attributes of the pickled
image object that the coordinator reads: `obj_file` (the path the object was
serialized to), `raw_img` (the source image path), `status`
(`"imported"` / `"final"`), `fail` (`None` or a failure tag) and `img_index`
(the ordinal assigned at dispatch). -/
structure ResultObj where
  obj_file : String
  raw_img : String
  status : String
  fail : Option String
  img_index : Nat
deriving DecidableEq, Repr

/-- `enumerateFrom start total paths` embeds the Python list comprehension
`[[i, total, j] for i, j in enumerate(paths, start)]`. -/
def enumerateFrom (start total : Nat) : List String → List WItem
  | [] => []
  | p :: ps => ⟨start, total, p⟩ :: enumerateFrom (start + 1) total ps

/-- The fresh-batch enumeration of `ProcWindow.process_images`
(`iota_frames.py` line 2170, identical in `iota_gui_init.py` line 478):
`self.img_list = [[i, len(self.init.input_list) + 1, j]
                  for i, j in enumerate(self.init.input_list, 1)]`. -/
def mkImgList (inputList : List String) : List WItem :=
  enumerateFrom 1 (inputList.length + 1) inputList

/-- Monitor-mode configuration at window creation (`ProcWindow.__init__`,
lines 1980-1990).  `monitor_mode` starts `False` and `monitor_mode_timeout`
starts `None`; if the saved parameter `advanced.monitor_mode` is set, monitor
mode is switched on and, if `advanced.monitor_mode_timeout` is set, the
timeout becomes 30 when `advanced.monitor_mode_timeout_length` is `None` and
the configured length otherwise.  Returns
`(monitor_mode, monitor_mode_timeout)`. -/
def initMonitorState (mm tmo : Bool) (len : Option Int) : Bool × Option Int :=
  if mm then
    (true, if tmo then
        some (match len with | none => 30 | some l => l)
      else none)
  else (false, none)

/-- The interactive toggle `ProcWindow.onMonitor` (lines 1991-2004).
`toolState` is the state of the Monitor toolbar button after the click; when
toggled off, `monitor_mode` becomes `False` and the timeout is cleared; when
toggled on, the timeout is recomputed exactly as at window creation, except
that with `advanced.monitor_mode_timeout` unset the previous timeout value
`cur.2` is left untouched. -/
def onMonitorToggle (toolState tmo : Bool) (len : Option Int)
    (cur : Bool × Option Int) : Bool × Option Int :=
  if toolState then
    (true, if tmo then
        some (match len with | none => 30 | some l => l)
      else cur.2)
  else (false, none)

/-- The observable outcome of `ProcWindow.onResume` (lines 2024-2072):
the regenerated `self.img_list` (after `process_images` extended it with
`self.new_images` in the `"resume"` branch), the resulting `self.state`
string, and the batch handed to the backend (the `iterable` of
`process_images`, empty when the run goes straight to `finish_process`). -/
structure ResumeOutcome where
  imgList : List WItem
  state : String
  dispatched : List WItem
deriving DecidableEq, Repr

/-- Pure core of `ProcWindow.onResume` (lines 2040-2072) composed with the
`state == "resume"` branch of `ProcWindow.process_images` (lines 2156-2168):
`old_file_list = [i.raw_img for i in self.finished_objects]`,
`new_file_list = [i for i in ext_file_list if i not in old_file_list]`,
`self.new_images = [[i, len(ext_file_list) + 1, j]
                    for i, j in enumerate(new_file_list, len(old_file_list) + 1)]`,
`self.img_list = [[i, len(ext_file_list) + 1, j]
                  for i, j in enumerate(old_file_list, 1)]`;
if `new_images` is empty the state becomes `"finished"` and nothing is
dispatched, otherwise the state becomes `"resume"`, `img_list` is extended
with `new_images` and exactly `new_images` is dispatched. -/
def onResume (ext : List String) (finished : List ResultObj) : ResumeOutcome :=
  let oldFileList := finished.map (fun o => o.raw_img)
  let newFileList := ext.filter (fun i => decide (i ∉ oldFileList))
  let newImages := enumerateFrom (oldFileList.length + 1) (ext.length + 1) newFileList
  let imgList := enumerateFrom 1 (ext.length + 1) oldFileList
  if newImages.length = 0 then
    { imgList := imgList, state := "finished", dispatched := [] }
  else
    { imgList := imgList ++ newImages, state := "resume", dispatched := newImages }

/-- The backend liveness sources consulted by the abort section of
`ProcWindow.onTimer` (lines 2540-2548): a local `ProcThread` exposing its
`aborted` flag (`self.img_process is not None`), the LSF scheduler queried
with `bjobs -J job_id` (`lsf_info == []` means the job is no longer listed),
or, for any other backend, the `.aborted.tmp` sentinel file. -/
inductive Backend where
  | localPool (procAborted : Bool)
  | lsf (jobListed : Bool)
  | sentinel (abortedFileExists : Bool)
deriving DecidableEq, Repr

/-- The value assigned to `self.run_aborted` by the liveness check of
`ProcWindow.onTimer`: the thread's `aborted` flag, `lsf_info == []`, or
`os.path.isfile(self.tmp_aborted_file)`. -/
def livenessTerminated : Backend → Bool
  | .localPool a => a
  | .lsf listed => !listed
  | .sentinel ex => ex

/-- The abort-related coordinator state: `self.abort_initiated` (set by
`ProcWindow.onAbort`, line 2019), `self.run_aborted`, and whether the
terminal ABORTED-BY-USER branch of `finish_process` has been reached (which
stops the poll timer, so no further ticks occur). -/
structure AbortState where
  abortInitiated : Bool
  runAborted : Bool
  aborted : Bool
deriving DecidableEq, Repr

/-- One poll tick of the abort section of `ProcWindow.onTimer`
(lines 2539-2553): if the terminal abort branch was already reached the
timer is stopped and nothing happens; otherwise, when `abort_initiated` is
set, `run_aborted` is recomputed from the backend liveness check and
`finish_process` is entered exactly when it is true; when `abort_initiated`
is unset, `run_aborted` is reset to `False`. -/
def onTimerAbortCheck (b : Backend) (σ : AbortState) : AbortState :=
  if σ.aborted then σ
  else if σ.abortInitiated then
    { σ with runAborted := livenessTerminated b,
             aborted := livenessTerminated b }
  else { σ with runAborted := false }

/-- Folding a sequence of poll ticks (one backend liveness answer per tick)
through the abort section of `ProcWindow.onTimer`. -/
def runPolls (σ : AbortState) (bs : List Backend) : AbortState :=
  bs.foldl (fun s b => onTimerAbortCheck b s) σ

/-- A mocked backend trace of `m` polls that reports the workers as still
running for the first `K` polls and as terminated from poll `K + 1` on
(polls are numbered from 1). -/
def mockTrace (K m : Nat) : List Backend :=
  (List.range m).map (fun i => Backend.sentinel (decide (K < i + 1)))

/-- A flat filesystem: the set of existing file paths. -/
structure FS where
  files : List String
deriving DecidableEq, Repr

/-- `if os.path.isfile(p): os.remove(p)`. -/
def removeIfExists (fs : FS) (p : String) : FS :=
  if p ∈ fs.files then ⟨fs.files.filter (fun q => decide (¬ q = p))⟩ else fs

/-- The full effect of `ProcWindow.onResume` including its prologue
(lines 2032-2038): delete `self.tmp_abort_file` and `self.tmp_aborted_file`
when present, clear `self.abort_initiated` and `self.run_aborted`, and only
then re-enumerate and re-dispatch (the `onResume` core). -/
structure ResumeFullState where
  fs : FS
  abortInitiated : Bool
  runAborted : Bool
  outcome : ResumeOutcome
deriving DecidableEq, Repr

/-- `ProcWindow.onResume`, lines 2032-2072: sentinel removal and flag
clearing happen before the re-dispatch performed inside `onResume`. -/
def onResumeFull (abortFile abortedFile : String) (fs : FS)
    (ext : List String) (fo : List ResultObj) : ResumeFullState :=
  let fs1 := removeIfExists fs abortFile
  let fs2 := removeIfExists fs1 abortedFile
  { fs := fs2, abortInitiated := false, runAborted := false,
    outcome := onResume ext fo }

/-- The monitor-mode state touched by the tail of `ProcWindow.onTimer`
(lines 2608-2638): `self.timeout_start` (wall-clock time of the first empty
poll, `None` when no empty poll is being timed), whether `finish_process`
has been entered (which stops the poll timer), and `self.state`. -/
structure MonState where
  timeoutStart : Option Int
  finished : Bool
  state : String
deriving DecidableEq, Repr

/-- One poll tick of the completion/monitor tail of `ProcWindow.onTimer`
(lines 2608-2638).  Arguments mirror the attributes the code reads:
`objCounter` = `self.obj_counter`, `imgLen` = `len(self.img_list)`,
`newImgs` = `len(self.new_images)`, `monitorMode` =`self.monitor_mode`,
`timeout` = `self.monitor_mode_timeout`, `now` = `time.time()`.  When all
known images are accounted for and monitor mode is on: finding new images
clears `timeout_start` and dispatches them (state `"new images"`);
otherwise, with a configured timeout, the first empty poll records `now`
and each later empty poll finishes once `now - timeout_start >= timeout`;
without a timeout the coordinator keeps waiting.  Outside monitor mode the
run finishes. -/
def onTimerWatchSection (objCounter imgLen newImgs : Nat) (monitorMode : Bool)
    (timeout : Option Int) (now : Int) (σ : MonState) : MonState :=
  if σ.finished then σ
  else if imgLen ≤ objCounter then
    if monitorMode then
      if 0 < newImgs then { σ with timeoutStart := none, state := "new images" }
      else
        match timeout with
        | some T =>
          match σ.timeoutStart with
          | none => { σ with timeoutStart := some now }
          | some t0 => if T ≤ now - t0 then { σ with finished := true } else σ
        | none => σ
    else { σ with finished := true }
  else σ

/-- A watching run in monitor mode with timeout `T` in which every poll
finds zero new images and all known images are done: one
`onTimerWatchSection` tick per element of `times` (the wall-clock reading
of that poll). -/
def emptyPollRun (T : Int) (times : List Int) : MonState :=
  times.foldl (fun σ t => onTimerWatchSection 0 0 0 true (some T) t σ)
    ⟨none, false, "process"⟩

/-- The object directory as seen by the harvester: one entry per file that
`ginp.get_file_list(self.init.obj_base, ext_only="int", ...)` returns, paired
with what `ep.load` yields for it — `some o` for a readable pickled object,
`none` when deserialization raises (`read_object_file` catches the exception,
prints `OBJECT_IMPORT_ERROR` and returns `None`, lines 2513-2524). -/
abbrev DiskDir : Type := List (String × Option ResultObj)

/-- A disk directory is well formed when every readable object records the
path it was read from in its `obj_file` attribute (the worker writes each
object to its own `obj_file`). -/
def wellFormed (d : DiskDir) : Bool :=
  d.all (fun e => e.2.all (fun o => o.obj_file == e.1))

/-- `ProcWindow.read_object_file` (lines 2513-2524) restricted to the
modelled attributes: load the object stored at `p`, or `None` if
deserialization fails.  (The code additionally merges the integration
pickle's observations into `object.final`; that only touches metric fields
not modelled here.) -/
def readDisk (d : DiskDir) (p : String) : Option ResultObj :=
  match d.find? (fun e => e.1 == p) with
  | some e => e.2
  | none => none

/-- The per-object part of the comprehension
`[i for i in new_objects if i is not None and i.status == "final"]`
(lines 2496-2498). -/
def keepFinal : Option ResultObj → Option ResultObj
  | some o => if o.status = "final" then some o else none
  | none => none

/-- The harvester's persistent state: `self.finished_objects` and
`self.read_object_files`. -/
structure HarvestState where
  finishedObjects : List ResultObj
  readObjectFiles : List String
deriving DecidableEq, Repr

/-- `new_object_files = list(set(object_files) - set(self.read_object_files))`
(line 2494): the distinct listed paths not yet recorded as read. -/
def newObjectFiles (d : DiskDir) (σ : HarvestState) : List String :=
  ((d.map (fun e => e.1)).dedup).filter (fun p => decide (p ∉ σ.readObjectFiles))

/-- `ProcWindow.find_objects` (lines 2486-2501): list the object directory,
read every not-yet-known file, keep the successfully read objects with
status `"final"`, append them to `finished_objects` and rebuild
`read_object_files` from the `obj_file` attributes of all finished objects.
Returns the updated state and the newly harvested objects. -/
def findObjects (d : DiskDir) (σ : HarvestState) : HarvestState × List ResultObj :=
  let newFiles := newObjectFiles d σ
  let newObjects := newFiles.map (readDisk d)
  let newFinishedObjects := newObjects.filterMap keepFinal
  let finished := σ.finishedObjects ++ newFinishedObjects
  ({ finishedObjects := finished,
     readObjectFiles := finished.map (fun o => o.obj_file) },
   newFinishedObjects)

/-- The dispatch-method parameter `mp_method` branched on by
`ProcWindow.process_images` (lines 2184-2234). -/
inductive MpMethod where
  | multiprocessing
  | lsf
  | torq
  | other
deriving DecidableEq, Repr

/-- Whether the external-queue branch of `process_images` builds a
submission command for the method (lines 2203-2234): `bsub ...` for `lsf`,
`qsub ...` for `torq`, and `command = None` otherwise. -/
def submitCommandExists : MpMethod → Bool
  | .lsf => true
  | .torq => true
  | _ => false

/-- What the external-queue branch of `process_images` leaves behind:
`self.state` (never assigned in this branch), whether the submission
command was handed to `easy_run.fully_buffered`, and how many times it was
issued. -/
structure DispatchRecord where
  state : String
  commandIssued : Bool
  submissionAttempts : Nat
deriving DecidableEq, Repr

/-- The external-queue tail of `ProcWindow.process_images`
(lines 2193-2246).  For `lsf`/`torq` exactly one submission command is run
through `easy_run.fully_buffered(...).show_stdout()`; the command's exit
status `exitCode` is never inspected (only its output is echoed) and the
only caught exception is `thr.IOTATermination`, so a failing or missing
submission executable leaves the run state unchanged and is not retried.
For any other method no command is issued
(`IOTA ERROR: COMMAND NOT ISSUED!`) and the method returns. -/
def externalSubmit (m : MpMethod) (state : String) (exitCode : Int) :
    DispatchRecord :=
  if submitCommandExists m then
    { state := state, commandIssued := true, submissionAttempts := 1 }
  else
    { state := state, commandIssued := false, submissionAttempts := 0 }

theorem enumerateFrom_map_path (s t : Nat) (l : List String) :
    (enumerateFrom s t l).map (fun it => it.path) = l := by
  induction l generalizing s with
  | nil => rfl
  | cons p ps ih => simp [enumerateFrom, ih]

theorem enumerateFrom_map_idx (s t : Nat) (l : List String) :
    (enumerateFrom s t l).map (fun it => it.idx) = List.range' s l.length := by
  induction l generalizing s with
  | nil => rfl
  | cons p ps ih => simp [enumerateFrom, ih, List.range']

theorem enumerateFrom_length (s t : Nat) (l : List String) :
    (enumerateFrom s t l).length = l.length := by
  induction l generalizing s with
  | nil => rfl
  | cons p ps ih => simp [enumerateFrom, ih]

theorem enumerateFrom_total (s t : Nat) (l : List String) :
    ∀ it ∈ enumerateFrom s t l, it.total = t := by
  induction l generalizing s with
  | nil => intro it h; cases h
  | cons p ps ih =>
    intro it h
    rw [enumerateFrom, List.mem_cons] at h
    rcases h with h | h
    · rw [h]
    · exact ih (s + 1) it h

/-- C3: For every enumerated input batch, the produced WorkItem sequence has
contiguous ordinals starting at 1, and every WorkItem carries the same
`total_in_batch` field, which equals the length of the sequence **plus one**
(the code stores `len(input_list) + 1`, not the length itself). -/
theorem iota_C3_enumeration (inputList : List String) :
    (mkImgList inputList).map (fun it => it.idx) =
      List.range' 1 inputList.length
    ∧ (mkImgList inputList).length = inputList.length
    ∧ ∀ it ∈ mkImgList inputList,
        it.total = (mkImgList inputList).length + 1 := by
  refine ⟨enumerateFrom_map_idx 1 _ inputList, enumerateFrom_length 1 _ inputList, ?_⟩
  intro it h
  rw [mkImgList, enumerateFrom_length 1 _ inputList]
  exact enumerateFrom_total 1 _ inputList it h

/-- C3 witness: the amended enumeration contract evaluated on the concrete
batch `["a", "b"]`. -/
theorem iota_C3_witness :
    (⟨1, 3, "a"⟩ : WItem) ∈ mkImgList ["a", "b"] ∧
      (⟨1, 3, "a"⟩ : WItem).total = (mkImgList ["a", "b"]).length + 1 :=
  ⟨by decide, (iota_C3_enumeration ["a", "b"]).2.2 ⟨1, 3, "a"⟩ (by decide)⟩

/-- C3 counterexample: for the one-element batch `["a"]` the code produces
`[[1, 2, "a"]]`, whose `total_in_batch` field is 2, not the sequence
length 1. -/
theorem iota_C3_counterexample :
    mkImgList ["a"] = [⟨1, 2, "a"⟩]
    ∧ ¬ (∀ it ∈ mkImgList ["a"], it.total = (mkImgList ["a"]).length) := by
  constructor
  · rfl
  · intro h
    have := h ⟨1, 2, "a"⟩ (by decide)
    simp [mkImgList, enumerateFrom] at this

/-- C9: if monitor mode is on and the timeout option is on but no timeout
length is configured, the idle timeout is set to 30 seconds, both when taken
from the saved parameters at window creation and when monitor mode is toggled
on interactively. -/
theorem iota_C9_default_timeout :
    initMonitorState true true none = (true, some 30)
    ∧ ∀ cur : Bool × Option Int,
        onMonitorToggle true true none cur = (true, some 30) := by
  exact ⟨rfl, fun cur => rfl⟩

theorem mem_path_of_mem_enumerateFrom {s t : Nat} {l : List String} {it : WItem}
    (h : it ∈ enumerateFrom s t l) : it.path ∈ l := by
  have := List.mem_map_of_mem (fun it => it.path) h
  rwa [enumerateFrom_map_path] at this

theorem onResume_of_filter_eq_nil (ext : List String) (fo : List ResultObj)
    (h : ext.filter (fun i => decide (i ∉ fo.map (fun o => o.raw_img))) = []) :
    onResume ext fo =
      { imgList := enumerateFrom 1 (ext.length + 1) (fo.map (fun o => o.raw_img)),
        state := "finished", dispatched := [] } := by
  simp only [onResume]
  rw [h]
  rfl

theorem onResume_of_filter_ne_nil (ext : List String) (fo : List ResultObj)
    (h : ext.filter (fun i => decide (i ∉ fo.map (fun o => o.raw_img))) ≠ []) :
    onResume ext fo =
      { imgList :=
          enumerateFrom 1 (ext.length + 1) (fo.map (fun o => o.raw_img)) ++
            enumerateFrom ((fo.map (fun o => o.raw_img)).length + 1) (ext.length + 1)
              (ext.filter (fun i => decide (i ∉ fo.map (fun o => o.raw_img)))),
        state := "resume",
        dispatched :=
          enumerateFrom ((fo.map (fun o => o.raw_img)).length + 1) (ext.length + 1)
            (ext.filter (fun i => decide (i ∉ fo.map (fun o => o.raw_img)))) } := by
  have hlen : (enumerateFrom ((fo.map (fun o => o.raw_img)).length + 1) (ext.length + 1)
      (ext.filter (fun i => decide (i ∉ fo.map (fun o => o.raw_img))))).length ≠ 0 := by
    rw [enumerateFrom_length]
    intro hc
    exact h (List.length_eq_zero.mp hc)
  simp only [onResume]
  rw [if_neg hlen]

theorem onResume_dispatched_paths (ext : List String) (fo : List ResultObj) :
    (onResume ext fo).dispatched.map (fun it => it.path) =
      ext.filter (fun i => decide (i ∉ fo.map (fun o => o.raw_img))) := by
  by_cases h : ext.filter (fun i => decide (i ∉ fo.map (fun o => o.raw_img))) = []
  · rw [onResume_of_filter_eq_nil ext fo h, h]
    rfl
  · rw [onResume_of_filter_ne_nil ext fo h]
    exact enumerateFrom_map_path _ _ _

theorem filter_not_mem_toFinset (ext old : List String) :
    (ext.filter (fun i => decide (i ∉ old))).toFinset =
      ext.toFinset \ old.toFinset := by
  ext a
  simp [List.mem_filter]

/-- C1 (amended): after `onResume`, the regenerated image list carries
contiguous ordinals `1, 2, …` (so ordinals are unique within the resumed
run); the already-completed items occupy the front of the list **in harvest
order** (the order of `self.finished_objects`, so an item keeps its
pre-abort ordinal only when that happens to equal its harvest position), and
the newly dispatched tail consists solely of items whose source path is not
among the harvested objects. -/
theorem iota_C1_resume_renumbering (ext : List String) (fo : List ResultObj) :
    ((onResume ext fo).imgList.map (fun it => it.idx) =
        List.range' 1 (onResume ext fo).imgList.length)
    ∧ ((onResume ext fo).imgList.map (fun it => it.path) =
        fo.map (fun o => o.raw_img) ++
          (onResume ext fo).dispatched.map (fun it => it.path))
    ∧ (∀ it ∈ (onResume ext fo).dispatched,
        it.path ∉ fo.map (fun o => o.raw_img)) := by
  by_cases h : ext.filter (fun i => decide (i ∉ fo.map (fun o => o.raw_img))) = []
  · rw [onResume_of_filter_eq_nil ext fo h]
    refine ⟨?_, ?_, ?_⟩
    · rw [enumerateFrom_length, enumerateFrom_map_idx]
    · rw [enumerateFrom_map_path]
      simp
    · intro it hit
      cases hit
  · rw [onResume_of_filter_ne_nil ext fo h]
    refine ⟨?_, ?_, ?_⟩
    · rw [List.map_append, enumerateFrom_map_idx, enumerateFrom_map_idx,
        List.length_append, enumerateFrom_length, enumerateFrom_length]
      have := List.range'_append 1 (fo.map (fun o => o.raw_img)).length
        (ext.filter (fun i => decide (i ∉ fo.map (fun o => o.raw_img)))).length 1
      simpa [Nat.add_comm] using this
    · rw [List.map_append, enumerateFrom_map_path, enumerateFrom_map_path]
    · intro it hit
      have hp := mem_path_of_mem_enumerateFrom hit
      have := List.of_mem_filter hp
      simpa using this

/-- C1 counterexample: original input `["a", "b", "c"]`, where `"b"` was
dispatched with ordinal 2 (and its harvested object records
`img_index = 2`), but the two finished objects were harvested out of order
(`"b"` first).  After `onResume` the item for `"b"` carries ordinal 1, not
its pre-abort ordinal 2. -/
theorem iota_C1_counterexample :
    (mkImgList ["a", "b", "c"]).filter (fun it => decide (it.path = "b")) =
        [⟨2, 4, "b"⟩]
    ∧ ((onResume ["a", "b", "c"]
          [⟨"ob", "b", "final", none, 2⟩, ⟨"oa", "a", "final", none, 1⟩]).imgList.filter
            (fun it => decide (it.path = "b"))) = [⟨1, 4, "b"⟩]
    ∧ (1 : Nat) ≠ 2 := by
  decide

/-- C1 witness: the amended renumbering contract applied at a concrete
resumed run, discharging the membership hypothesis of the third conjunct. -/
theorem iota_C1_witness :
    (⟨3, 4, "c"⟩ : WItem).path ∉
      ([⟨"ob", "b", "final", none, 2⟩, ⟨"oa", "a", "final", none, 1⟩] :
          List ResultObj).map (fun o => o.raw_img) :=
  (iota_C1_resume_renumbering ["a", "b", "c"]
      [⟨"ob", "b", "final", none, 2⟩, ⟨"oa", "a", "final", none, 1⟩]).2.2
    ⟨3, 4, "c"⟩ (by decide)

/-- C2: `onResume` dispatches exactly the set difference between the current
input enumeration and the source paths of the harvested objects (whatever
their success/failure outcome), and when that difference is empty the run
goes straight to the `"finished"` state without dispatching anything;
otherwise it enters the `"resume"` state. -/
theorem iota_C2_resume_dispatches_difference (ext : List String)
    (fo : List ResultObj) :
    (((onResume ext fo).dispatched.map (fun it => it.path)).toFinset =
        ext.toFinset \ (fo.map (fun o => o.raw_img)).toFinset)
    ∧ (ext.toFinset \ (fo.map (fun o => o.raw_img)).toFinset = ∅ →
        (onResume ext fo).state = "finished" ∧ (onResume ext fo).dispatched = [])
    ∧ (ext.toFinset \ (fo.map (fun o => o.raw_img)).toFinset ≠ ∅ →
        (onResume ext fo).state = "resume") := by
  refine ⟨?_, ?_, ?_⟩
  · rw [onResume_dispatched_paths, filter_not_mem_toFinset]
  · intro h
    rw [← filter_not_mem_toFinset] at h
    have hf := List.toFinset_eq_empty_iff _ |>.mp h
    rw [onResume_of_filter_eq_nil ext fo hf]
    exact ⟨rfl, rfl⟩
  · intro h
    have hf : ext.filter (fun i => decide (i ∉ fo.map (fun o => o.raw_img))) ≠ [] := by
      intro hc
      rw [← filter_not_mem_toFinset, hc] at h
      exact h rfl
    rw [onResume_of_filter_ne_nil ext fo hf]

/-- C2 witness: the dispatch-difference property applied at a concrete
resumed run with an empty remainder, discharging the hypothesis of the
second conjunct. -/
theorem iota_C2_witness :
    (onResume ["a"] [⟨"oa", "a", "final", some "failed triage", 1⟩]).state =
        "finished" ∧
      (onResume ["a"] [⟨"oa", "a", "final", some "failed triage", 1⟩]).dispatched = [] :=
  (iota_C2_resume_dispatches_difference ["a"]
      [⟨"oa", "a", "final", some "failed triage", 1⟩]).2.1 (by decide)

theorem runPolls_append (σ : AbortState) (bs : List Backend) (b : Backend) :
    runPolls σ (bs ++ [b]) = onTimerAbortCheck b (runPolls σ bs) := by
  simp [runPolls, List.foldl_append]

theorem mockTrace_succ (K m : Nat) :
    mockTrace K (m + 1) = mockTrace K m ++ [Backend.sentinel (decide (K < m + 1))] := by
  simp [mockTrace, List.range_succ]

theorem runPolls_mockTrace (K m : Nat) :
    runPolls ⟨true, false, false⟩ (mockTrace K m) =
      if K < m then ⟨true, true, true⟩ else ⟨true, false, false⟩ := by
  induction m with
  | zero => simp [mockTrace, runPolls]
  | succ m ih =>
    rw [mockTrace_succ, runPolls_append, ih]
    by_cases h : K < m
    · rw [if_pos h, if_pos (Nat.lt_succ_of_lt h)]
      rfl
    · rw [if_neg h]
      by_cases h2 : K < m + 1
      · rw [if_pos h2]
        simp [onTimerAbortCheck, livenessTerminated, h2]
      · rw [if_neg h2]
        simp [onTimerAbortCheck, livenessTerminated, h2]

theorem not_mem_removeIfExists_self (fs : FS) (p : String) :
    p ∉ (removeIfExists fs p).files := by
  unfold removeIfExists
  split_ifs with h
  · simp [List.mem_filter]
  · exact h

theorem not_mem_removeIfExists (fs : FS) (p q : String) (h : q ∉ fs.files) :
    q ∉ (removeIfExists fs p).files := by
  unfold removeIfExists
  split_ifs with h1
  · intro hc
    exact h (List.mem_of_mem_filter hc)
  · exact h

/-- C4: after an abort has been initiated, a poll tick whose backend
liveness check still reports the workers as running never reaches the
terminal aborted branch; and against a mocked backend that reports "still
running" for the first `K` polls and "terminated" thereafter, the run is in
the terminal aborted branch after `m` polls exactly when `m ≥ K + 1`, i.e.
the transition happens exactly at poll `K + 1`. -/
theorem iota_C4_abort_gating :
    (∀ (b : Backend) (σ : AbortState), livenessTerminated b = false →
        (onTimerAbortCheck b σ).aborted = σ.aborted)
    ∧ ∀ K m : Nat,
        (runPolls ⟨true, false, false⟩ (mockTrace K m)).aborted = decide (K < m) := by
  constructor
  · intro b σ h
    unfold onTimerAbortCheck
    split_ifs with h1 h2 <;> simp_all
  · intro K m
    rw [runPolls_mockTrace]
    by_cases h : K < m <;> simp [h]

/-- C4 witness: the gating conjunct applied to a concrete tick where the
sentinel-file liveness check still reports the workers as running. -/
theorem iota_C4_witness :
    (onTimerAbortCheck (Backend.sentinel false) ⟨true, false, false⟩).aborted =
      (⟨true, false, false⟩ : AbortState).aborted :=
  iota_C4_abort_gating.1 (Backend.sentinel false) ⟨true, false, false⟩ rfl

/-- C10: resuming first removes both abort sentinel files (when present) and
clears `abort_initiated` and `run_aborted` before any re-dispatch, so the
state handed to the re-dispatched run contains no abort signal, and the next
poll tick cannot take the abort branch whatever the backend reports. -/
theorem iota_C10_resume_clears_abort (abortFile abortedFile : String) (fs : FS)
    (ext : List String) (fo : List ResultObj) :
    abortFile ∉ (onResumeFull abortFile abortedFile fs ext fo).fs.files
    ∧ abortedFile ∉ (onResumeFull abortFile abortedFile fs ext fo).fs.files
    ∧ (onResumeFull abortFile abortedFile fs ext fo).abortInitiated = false
    ∧ (onResumeFull abortFile abortedFile fs ext fo).runAborted = false
    ∧ ∀ b : Backend,
        (onTimerAbortCheck b
          ⟨(onResumeFull abortFile abortedFile fs ext fo).abortInitiated,
            (onResumeFull abortFile abortedFile fs ext fo).runAborted,
            false⟩).aborted = false := by
  refine ⟨?_, ?_, rfl, rfl, ?_⟩
  · exact not_mem_removeIfExists _ _ _ (not_mem_removeIfExists_self fs abortFile)
  · exact not_mem_removeIfExists_self _ _
  · intro b
    rfl

/-- C10 witness: the clean-resume property evaluated on a concrete
filesystem holding both sentinel files. -/
theorem iota_C10_witness :
    ".abort.tmp" ∉
      (onResumeFull ".abort.tmp" ".aborted.tmp" ⟨[".abort.tmp", ".aborted.tmp"]⟩
          ["a"] []).fs.files :=
  (iota_C10_resume_clears_abort ".abort.tmp" ".aborted.tmp"
      ⟨[".abort.tmp", ".aborted.tmp"]⟩ ["a"] []).1

theorem watch_stay (T t0 now : Int) (st : String) (h : now - t0 < T) :
    onTimerWatchSection 0 0 0 true (some T) now ⟨some t0, false, st⟩ =
      ⟨some t0, false, st⟩ := by
  simp only [onTimerWatchSection]
  rw [if_neg (not_le.mpr h)]
  simp

theorem watch_fire (T t0 now : Int) (st : String) (h : T ≤ now - t0) :
    onTimerWatchSection 0 0 0 true (some T) now ⟨some t0, false, st⟩ =
      ⟨some t0, true, st⟩ := by
  simp only [onTimerWatchSection]
  rw [if_pos h]
  simp

theorem emptyPolls_stay (T t0 : Int) (st : String) (pre : List Int)
    (h : ∀ s ∈ pre, s - t0 < T) :
    pre.foldl (fun σ t => onTimerWatchSection 0 0 0 true (some T) t σ)
        ⟨some t0, false, st⟩ = ⟨some t0, false, st⟩ := by
  induction pre with
  | nil => rfl
  | cons s ss ih =>
    rw [List.foldl_cons, watch_stay T t0 s st (h s (List.mem_cons_self s ss))]
    exact ih fun x hx => h x (List.mem_cons_of_mem s hx)

/-- C5: in monitor mode with a configured timeout `T`, (1) the first empty
poll records its wall-clock time in `timeout_start` and does not finish the
run; (2) as long as every subsequent empty poll is less than `T` past that
recorded time, the run stays watching with the recorded time unchanged;
(3) the run finishes exactly at the first later empty poll whose elapsed
time since the recorded start is at least `T`; and (4) any poll that finds
new images clears the recorded start time (resetting the timer) and
dispatches them. -/
theorem iota_C5_idle_timeout :
    (∀ (T now : Int) (st : String),
        onTimerWatchSection 0 0 0 true (some T) now ⟨none, false, st⟩ =
          ⟨some now, false, st⟩)
    ∧ (∀ (T t0 : Int) (pre : List Int), (∀ s ∈ pre, s - t0 < T) →
        emptyPollRun T (t0 :: pre) = ⟨some t0, false, "process"⟩)
    ∧ (∀ (T t0 : Int) (pre : List Int) (t : Int), (∀ s ∈ pre, s - t0 < T) →
        T ≤ t - t0 →
        emptyPollRun T (t0 :: (pre ++ [t])) = ⟨some t0, true, "process"⟩)
    ∧ (∀ (tm : Option Int) (n : Nat) (now : Int) (σ : MonState),
        σ.finished = false → 0 < n →
        (onTimerWatchSection 0 0 n true tm now σ).timeoutStart = none ∧
          (onTimerWatchSection 0 0 n true tm now σ).state = "new images") := by
  refine ⟨fun T now st => rfl, ?_, ?_, ?_⟩
  · intro T t0 pre h
    rw [emptyPollRun, List.foldl_cons]
    exact emptyPolls_stay T t0 "process" pre h
  · intro T t0 pre t h ht
    rw [emptyPollRun, List.foldl_cons]
    show (pre ++ [t]).foldl (fun σ t => onTimerWatchSection 0 0 0 true (some T) t σ)
        ⟨some t0, false, "process"⟩ = ⟨some t0, true, "process"⟩
    rw [List.foldl_append, emptyPolls_stay T t0 "process" pre h, List.foldl_cons,
      List.foldl_nil, watch_fire T t0 t "process" ht]
  · intro tm n now σ hfin hn
    simp [onTimerWatchSection, hfin, hn]

/-- C5 witness: the idle-timeout property on a concrete watching run with
timeout 5: empty polls at times 0 and 3 keep watching, the poll at time 7
finishes the run. -/
theorem iota_C5_witness :
    emptyPollRun 5 ((0 : Int) :: ([3] ++ [7])) = ⟨some 0, true, "process"⟩ :=
  iota_C5_idle_timeout.2.2.1 5 0 [3] 7 (by decide) (by decide)

theorem keepFinal_eq_some {oi : Option ResultObj} {o : ResultObj}
    (h : keepFinal oi = some o) : oi = some o ∧ o.status = "final" := by
  match oi with
  | none => cases h
  | some o' =>
    by_cases hs : o'.status = "final"
    · rw [keepFinal, if_pos hs] at h
      cases h
      exact ⟨rfl, hs⟩
    · rw [keepFinal, if_neg hs] at h
      cases h

theorem readDisk_obj_file {d : DiskDir} {q : String} {o : ResultObj}
    (hwf : wellFormed d = true) (h : readDisk d q = some o) : o.obj_file = q := by
  rw [readDisk] at h
  cases hf : d.find? (fun e => e.1 == q) with
  | none => rw [hf] at h; cases h
  | some e =>
    rw [hf] at h
    have hmem := List.mem_of_find?_eq_some hf
    have hpred : e.1 = q := by
      have := List.find?_some hf
      simpa using this
    have hall := (List.all_eq_true.mp hwf) e hmem
    have h2 : e.2 = some o := h
    rw [h2] at hall
    have : o.obj_file = e.1 := by simpa [Option.all] using hall
    rw [this, hpred]

theorem findObjects_snd (d : DiskDir) (σ : HarvestState) :
    (findObjects d σ).2 =
      (newObjectFiles d σ).filterMap (fun q => keepFinal (readDisk d q)) := by
  rw [findObjects, List.filterMap_map]
  rfl

theorem findObjects_known (d : DiskDir) (σ : HarvestState) :
    (findObjects d σ).1.readObjectFiles =
      (σ.finishedObjects ++ (findObjects d σ).2).map (fun o => o.obj_file) :=
  rfl

theorem mem_findObjects_snd {d : DiskDir} {σ : HarvestState} {o : ResultObj} :
    o ∈ (findObjects d σ).2 ↔
      ∃ q ∈ newObjectFiles d σ, readDisk d q = some o ∧ o.status = "final" := by
  rw [findObjects_snd, List.mem_filterMap]
  constructor
  · rintro ⟨q, hq, hk⟩
    obtain ⟨hr, hs⟩ := keepFinal_eq_some hk
    exact ⟨q, hq, hr, hs⟩
  · rintro ⟨q, hq, hr, hs⟩
    refine ⟨q, hq, ?_⟩
    rw [hr, keepFinal, if_pos hs]

/-- C6: the harvester scan is idempotent: scanning the same directory a
second time, starting from the state left by the first scan (whose
`read_object_files` is consistent with its `finished_objects`, as the code
maintains), harvests no new objects. -/
theorem iota_C6_harvest_idempotent (d : DiskDir) (σ : HarvestState)
    (hwf : wellFormed d = true)
    (hc : σ.readObjectFiles = σ.finishedObjects.map (fun o => o.obj_file)) :
    (findObjects d (findObjects d σ).1).2 = [] := by
  rw [List.eq_nil_iff_forall_not_mem]
  intro o ho
  rw [mem_findObjects_snd] at ho
  obtain ⟨q, hq, hr, hs⟩ := ho
  have hobj : o.obj_file = q := readDisk_obj_file hwf hr
  rw [newObjectFiles, List.mem_filter, decide_eq_true_eq] at hq
  obtain ⟨hqd, hqk⟩ := hq
  apply hqk
  rw [findObjects_known, List.map_append]
  rw [List.mem_append]
  by_cases hqold : q ∈ σ.readObjectFiles
  · left
    rw [hc] at hqold
    exact hqold
  · right
    have hq1 : q ∈ newObjectFiles d σ := by
      rw [newObjectFiles, List.mem_filter, decide_eq_true_eq]
      exact ⟨hqd, hqold⟩
    have ho1 : o ∈ (findObjects d σ).2 :=
      mem_findObjects_snd.mpr ⟨q, hq1, hr, hs⟩
    rw [List.mem_map]
    exact ⟨o, ho1, hobj⟩

/-- C6 witness: idempotence of the scan on a concrete one-file directory
starting from the fresh harvester state. -/
theorem iota_C6_witness :
    (findObjects [("f1", some ⟨"f1", "a", "final", none, 1⟩)]
        (findObjects [("f1", some ⟨"f1", "a", "final", none, 1⟩)]
          ⟨[], []⟩).1).2 = [] :=
  iota_C6_harvest_idempotent [("f1", some ⟨"f1", "a", "final", none, 1⟩)]
    ⟨[], []⟩ (by decide) rfl

theorem readDisk_none_of_all_none {d : DiskDir} {p : String}
    (h : ∀ e ∈ d, e.1 = p → e.2 = none) : readDisk d p = none := by
  rw [readDisk]
  cases hf : d.find? (fun e => e.1 == p) with
  | none => rfl
  | some e =>
    have hmem := List.mem_of_find?_eq_some hf
    have hpred : e.1 = p := by
      have := List.find?_some hf
      simpa using this
    exact h e hmem hpred

theorem readDisk_cons (e : String × Option ResultObj) (es : DiskDir) (q : String) :
    readDisk (e :: es) q = if e.1 = q then e.2 else readDisk es q := by
  by_cases h : e.1 = q
  · rw [if_pos h, readDisk, List.find?_cons_of_pos _ (by simp [h])]
  · rw [if_neg h, readDisk, List.find?_cons_of_neg _ (by simp [h]), readDisk]

theorem readDisk_filter_ne {d : DiskDir} {p q : String} (hq : q ≠ p) :
    readDisk (d.filter (fun e => decide (¬ e.1 = p))) q = readDisk d q := by
  induction d with
  | nil => rfl
  | cons e es ih =>
    rw [List.filter_cons]
    by_cases hep : e.1 = p
    · have hne : ¬ e.1 = q := fun hc => hq (by rw [← hc]; exact hep)
      rw [if_neg (by simp [hep]), ih, readDisk_cons, if_neg hne]
    · rw [if_pos (by simp [hep]), readDisk_cons, readDisk_cons]
      by_cases heq : e.1 = q
      · rw [if_pos heq, if_pos heq]
      · rw [if_neg heq, if_neg heq, ih]

theorem map_fst_filter_ne (d : DiskDir) (p : String) :
    (d.filter (fun e => decide (¬ e.1 = p))).map (fun e => e.1) =
      (d.map (fun e => e.1)).filter (fun q => decide (¬ q = p)) := by
  induction d with
  | nil => rfl
  | cons e es ih =>
    rw [List.filter_cons, List.map_cons, List.filter_cons]
    by_cases hep : e.1 = p
    · rw [if_neg (by simp [hep]), if_neg (by simp [hep]), ih]
    · rw [if_pos (by simp [hep]), if_pos (by simp [hep]), List.map_cons, ih]

theorem dedup_filter_comm (l : List String) (f : String → Bool) :
    (l.filter f).dedup = l.dedup.filter f := by
  induction l with
  | nil => rfl
  | cons a l ih =>
    rw [List.filter_cons]
    by_cases hfa : f a = true
    · rw [if_pos hfa]
      by_cases hal : a ∈ l
      · have h1 : a ∈ l.filter f := List.mem_filter.mpr ⟨hal, hfa⟩
        rw [List.dedup_cons_of_mem h1, List.dedup_cons_of_mem hal, ih]
      · have h1 : a ∉ l.filter f := fun hc => hal (List.mem_of_mem_filter hc)
        rw [List.dedup_cons_of_not_mem h1, List.dedup_cons_of_not_mem hal,
          List.filter_cons, if_pos hfa, ih]
    · rw [if_neg hfa]
      by_cases hal : a ∈ l
      · rw [List.dedup_cons_of_mem hal, ih]
      · rw [List.dedup_cons_of_not_mem hal, List.filter_cons, if_neg hfa, ih]

theorem filterMap_filter_ne {β : Type} (f : String → Option β) (p : String)
    (hf : f p = none) (l : List String) :
    (l.filter (fun q => decide (¬ q = p))).filterMap f = l.filterMap f := by
  induction l with
  | nil => rfl
  | cons a l ih =>
    rw [List.filter_cons]
    by_cases hap : a = p
    · rw [if_neg (by simp [hap]), ih, List.filterMap_cons, hap, hf]
    · rw [if_pos (by simp [hap]), List.filterMap_cons, List.filterMap_cons, ih]

theorem filterMap_congr_mem {α β : Type} {f g : α → Option β} (l : List α)
    (h : ∀ a ∈ l, f a = g a) : l.filterMap f = l.filterMap g := by
  induction l with
  | nil => rfl
  | cons a l ih =>
    rw [List.filterMap_cons, List.filterMap_cons, h a (List.mem_cons_self a l),
      ih fun x hx => h x (List.mem_cons_of_mem a hx)]

/-- C7 counterexample: with one unreadable result file `"f1"` on disk and a
fresh harvester state, the first scan reads `"f1"`, harvests nothing and —
because only successfully read final objects enter `read_object_files` —
the second scan reads `"f1"` again: the failing file IS retried on the next
scan, contradicting "the file is not retried on later scans". -/
theorem iota_C7_counterexample :
    "f1" ∈ newObjectFiles [("f1", (none : Option ResultObj))] ⟨[], []⟩
    ∧ (findObjects [("f1", (none : Option ResultObj))] ⟨[], []⟩).2 = []
    ∧ "f1" ∈ newObjectFiles [("f1", (none : Option ResultObj))]
        (findObjects [("f1", (none : Option ResultObj))] ⟨[], []⟩).1 := by
  decide

/-- C7 (amended): a result file whose deserialization fails is skipped
without aborting the scan — it contributes no harvested object (a), and the
remaining files of the same scan harvest exactly the same objects as if the
corrupt file were absent from the directory (b) — but, contrary to the
original claim, the file IS read again on the next scan (c), because only
successfully read `"final"` objects are recorded in `read_object_files`. -/
theorem iota_C7_harvest_error_skip (d : DiskDir) (σ : HarvestState) (p : String)
    (hwf : wellFormed d = true)
    (hc : σ.readObjectFiles = σ.finishedObjects.map (fun o => o.obj_file))
    (hall : ∀ e ∈ d, e.1 = p → e.2 = none)
    (hp : p ∈ d.map (fun e => e.1))
    (hpk : p ∉ σ.readObjectFiles) :
    (∀ o ∈ (findObjects d σ).2, o.obj_file ≠ p)
    ∧ (findObjects (d.filter (fun e => decide (¬ e.1 = p))) σ).2 =
        (findObjects d σ).2
    ∧ p ∈ newObjectFiles d (findObjects d σ).1 := by
  have hnone : readDisk d p = none := readDisk_none_of_all_none hall
  have hmemchar : ∀ o ∈ (findObjects d σ).2, o.obj_file ≠ p := by
    intro o ho hop
    obtain ⟨q, hq, hr, hs⟩ := mem_findObjects_snd.mp ho
    have hobj : o.obj_file = q := readDisk_obj_file hwf hr
    rw [hobj] at hop
    rw [hop, hnone] at hr
    cases hr
  refine ⟨hmemchar, ?_, ?_⟩
  · rw [findObjects_snd, findObjects_snd]
    have h1 : newObjectFiles (d.filter (fun e => decide (¬ e.1 = p))) σ =
        (newObjectFiles d σ).filter (fun q => decide (¬ q = p)) := by
      rw [newObjectFiles, newObjectFiles, map_fst_filter_ne, dedup_filter_comm,
        List.filter_filter, List.filter_filter]
      apply List.filter_congr
      intro q hq
      rw [Bool.and_comm]
    rw [h1]
    rw [filterMap_congr_mem _ (fun q hq => by
      have hqp : ¬ q = p := by
        have := List.mem_filter.mp hq
        simpa using this.2
      rw [readDisk_filter_ne hqp])]
    exact filterMap_filter_ne _ p (by rw [hnone]; rfl) _
  · rw [newObjectFiles, List.mem_filter, decide_eq_true_eq]
    refine ⟨List.mem_dedup.mpr hp, ?_⟩
    rw [findObjects_known, List.map_append, List.mem_append]
    rintro (hold | hnew)
    · rw [← hc] at hold
      exact hpk hold
    · rw [List.mem_map] at hnew
      obtain ⟨o, ho, hop⟩ := hnew
      exact hmemchar o ho hop

/-- C7 witness: the amended skip/retry behaviour on a concrete directory
with one corrupt file `"f1"` and one readable final object `"f2"`. -/
theorem iota_C7_witness :
    (∀ o ∈ (findObjects
        [("f1", (none : Option ResultObj)), ("f2", some ⟨"f2", "b", "final", none, 2⟩)]
        ⟨[], []⟩).2, o.obj_file ≠ "f1")
    ∧ (findObjects
        ([("f1", (none : Option ResultObj)), ("f2", some ⟨"f2", "b", "final", none, 2⟩)].filter
          (fun e => decide (¬ e.1 = "f1"))) ⟨[], []⟩).2 =
        (findObjects
          [("f1", (none : Option ResultObj)), ("f2", some ⟨"f2", "b", "final", none, 2⟩)]
          ⟨[], []⟩).2
    ∧ "f1" ∈ newObjectFiles
        [("f1", (none : Option ResultObj)), ("f2", some ⟨"f2", "b", "final", none, 2⟩)]
        (findObjects
          [("f1", (none : Option ResultObj)), ("f2", some ⟨"f2", "b", "final", none, 2⟩)]
          ⟨[], []⟩).1 :=
  iota_C7_harvest_error_skip
    [("f1", (none : Option ResultObj)), ("f2", some ⟨"f2", "b", "final", none, 2⟩)]
    ⟨[], []⟩ "f1" (by decide) rfl (by decide) (by decide) (by decide)

/-- C8 counterexample: an LSF submission that exits with status 1 leaves the
coordinator in exactly the same state as one that exits with status 0 — the
failure is not detected, and the run state (here `"resume"`) is unchanged,
so no transition to any failed-dispatch terminal state occurs. -/
theorem iota_C8_counterexample :
    externalSubmit MpMethod.lsf "resume" 1 = externalSubmit MpMethod.lsf "resume" 0
    ∧ (externalSubmit MpMethod.lsf "resume" 1).state = "resume" := by
  decide

/-- C8 (amended): an external-queue submission command is issued at most
once (no automatic retry), but its failure is not detected by the
coordinator: the outcome is independent of the command's exit status and
the run state is left unchanged — there is no failed-dispatch terminal
state. -/
theorem iota_C8_dispatch_failure (m : MpMethod) (st : String) (ec : Int) :
    (externalSubmit m st ec).state = st
    ∧ (externalSubmit m st ec).submissionAttempts ≤ 1
    ∧ externalSubmit m st ec = externalSubmit m st 0 := by
  unfold externalSubmit
  split_ifs <;> exact ⟨rfl, by simp, rfl⟩
